import Mathlib

/-!
Verification of the progress-submission engine of the Rosttatime repository.

The embedding covers:
* `titleToSlug` (addProgress.ts): the slugification of sequence titles;
* `addProgressForActivity` (addProgress.ts): the replay-then-fallback
  submission strategy, with the browser collaborators (session storage,
  in-page script execution, the direct fetch) modelled as an environment
  of outcomes supplied per call;
* `handleProcessSelected` (TimeForm.tsx): the selected-batch engine with
  its success/error counters, per-sequence report lines and network-call
  trace;
* `processAllProgress` (addProgress.ts): the non-interactive traversal
  over every course, sequence, activity and step.

Strings are modelled as Lean `String`/`List Char`; the platform functions
`String.prototype.toLowerCase` and `String.prototype.normalize('NFD')`
are parameters of `titleToSlug`, assumed only to be the identity on
strings made of lowercase ASCII letters, digits and dashes (a property
the Unicode definitions of case mapping and canonical decomposition
guarantee).  `JSON.parse` outcomes, HTTP responses and in-page execution
results are supplied by environments, so every branch of the source is
reachable by choosing the environment.
-/

namespace Rost

/-! ### Identifier utilities (addProgress.ts, titleToSlug)

JS source:
```
return title
  .toLowerCase()
  .normalize('NFD')
  .replace(/[U+0300 - U+036F]/g, '')
  .replace(/[^a-z0-9]+/g, '-')
  .replace(/^-|-$/g, '');
```
-/

/-- Characters matched by the JS character class `[a-z0-9]`: the
codepoint ranges U+0061 to U+007A and U+0030 to U+0039. -/
def isSlugAlnum (c : Char) : Bool :=
  (0x61 ≤ c.toNat && c.toNat ≤ 0x7A) || (0x30 ≤ c.toNat && c.toNat ≤ 0x39)

/-- Combining diacritical marks, the JS class U+0300 to U+036F. -/
def isCombining (c : Char) : Bool :=
  0x300 ≤ c.toNat && c.toNat ≤ 0x36F

/-- The step `.replace(/[combining]/g, '')`: delete every combining mark. -/
def stripCombining (l : List Char) : List Char :=
  l.filter (fun c => !isCombining c)

/-- The step `.replace(/[^a-z0-9]+/g, '-')`: each maximal run of characters outside
`[a-z0-9]` becomes a single dash.  The flag records whether the previous
character already emitted the dash of the current run. -/
def collapseNonAlnum : Bool → List Char → List Char
  | _, [] => []
  | prevDash, c :: cs =>
    if isSlugAlnum c then c :: collapseNonAlnum false cs
    else if prevDash then collapseNonAlnum true cs
    else '-' :: collapseNonAlnum true cs

/-- The leading-dash half of `.replace(/^-|-$/g, '')`: the anchored
alternative can remove at most one dash at the start. -/
def dropLeadingDash : List Char → List Char
  | [] => []
  | c :: rest => if c = '-' then rest else c :: rest

/-- The trailing-dash half of `.replace(/^-|-$/g, '')`: at most one dash
is removed at the end. -/
def dropTrailingDash : List Char → List Char
  | [] => []
  | [c] => if c = '-' then [] else [c]
  | c :: c2 :: rest => c :: dropTrailingDash (c2 :: rest)

/-- The step `.replace(/^-|-$/g, '')` as a whole. -/
def trimDashes (l : List Char) : List Char :=
  dropTrailingDash (dropLeadingDash l)

/-- The function `titleToSlug` (addProgress.ts lines 38-45).  `toLower` and `nfd` stand
for the platform Unicode functions `toLowerCase` and `normalize('NFD')`;
the rest is the regex pipeline translated above. -/
def titleToSlug (toLower nfd : List Char → List Char) (s : List Char) : List Char :=
  trimDashes (collapseNonAlnum false (stripCombining (nfd (toLower s))))

/-- Characters a slug may contain: `[a-z0-9]` or a dash. -/
def isSlugChar (c : Char) : Bool :=
  isSlugAlnum c || c = '-'

/-- No two adjacent dashes anywhere in the list. -/
def noDoubleDash : List Char → Bool
  | [] => true
  | [_] => true
  | a :: b :: rest => !(a = '-' && b = '-') && noDoubleDash (b :: rest)

/-- Well-formedness claimed by the spec for slugs: only lowercase ASCII
letters, digits and single dashes, with no leading or trailing dash. -/
def isGoodSlug (l : List Char) : Bool :=
  l.all isSlugChar && noDoubleDash l &&
    !(l.head? = some '-') && !(l.getLast? = some '-')

/-! ### Submission strategy (addProgress.ts, addProgressForActivity)

The browser collaborators are modelled as an outcome environment:
`ReplayOutcome` is what the replay path (session-storage read, stored
body parse, tab lookup and in-page `executeScript`) does on this call,
and `fallback` is what the direct `fetch` of the fallback path returns
(`Except.error` when the fetch itself rejects).  The constant
`YOUR_AUTH_TOKEN` of the source is a non-empty literal, so the
token-missing guard never fires and is not modelled. -/

/-- The value produced by the in-page script: `{ status, ok, text }`. -/
structure PageResult where
  status : Nat
  ok : Bool
  text : String
deriving Repr, DecidableEq

/-- What the replay path does on one call of `addProgressForActivity`. -/
inductive ReplayOutcome where
  /-- the call `browser.storage.session.get` throws. -/
  | storageError
  /-- no stored request under the key, or a stored request without a body
  (the `if (storedReq && storedReq.body)` guard is false). -/
  | noStored
  /-- the call `JSON.parse(reqCopy.body)` throws. -/
  | bodyParseError
  /-- the call `getTab()` or `browser.scripting.executeScript` throws. -/
  | execError
  /-- the in-page script ran; `results?.[0]?.result` is `r`. -/
  | executed (r : Option PageResult)
deriving Repr, DecidableEq

/-- A decoded response of the direct fallback `fetch`. -/
structure HttpResponse where
  ok : Bool
  status : Nat
  text : String
  hasErrors : Bool
  errorsText : String
deriving Repr, DecidableEq

/-- Environment of one `addProgressForActivity` call. -/
structure SubmitEnv where
  replay : ReplayOutcome
  fallback : Except String HttpResponse

/-- What `addProgressForActivity` resolves to when it does not throw. -/
inductive SubmitResult where
  /-- the replay path returned the raw in-page result. -/
  | replayed (r : Option PageResult)
  /-- the fallback path returned the decoded GraphQL payload. -/
  | fallbackData (resp : HttpResponse)
deriving Repr, DecidableEq

/-- The fallback tail of `addProgressForActivity` (lines 199-248): direct
fetch, then `if (!res.ok) throw HTTP error`, then
`if (data.errors) throw GraphQL error`, else return the data. -/
def fallbackFetch (env : SubmitEnv) : Except String SubmitResult :=
  match env.fallback with
  | .error e => .error e
  | .ok resp =>
    if !resp.ok then
      .error ("HTTP error " ++ toString resp.status ++ ": " ++ resp.text)
    else if resp.hasErrors then
      .error ("GraphQL error: " ++ resp.errorsText)
    else
      .ok (.fallbackData resp)

/-- The function `addProgressForActivity` (addProgress.ts lines 118-249).  The guard
rejects any empty identifier; then the replay path is tried: if the
in-page script executes, its result is returned as is; a storage error,
an absent or bodyless stored request, a body-parse error or an execution
error all reach the fallback fetch (the first and last two through the
`catch`, the absent-request case by falling out of the `try` normally).
The `score` argument only enters the submitted payload, which the claims
do not inspect, so it is not modelled further. -/
def addProgressForActivity (courseId sequenceId activityId activityStepId : String)
    (env : SubmitEnv) : Except String SubmitResult :=
  if courseId = "" ∨ sequenceId = "" ∨ activityId = "" ∨ activityStepId = "" then
    .error "courseId, sequenceId, activityId, and activityStepId are required"
  else
    match env.replay with
    | .executed r => .ok (.replayed r)
    | _ => fallbackFetch env

/-- Returns `true` exactly when an `Except` is a success. -/
def isOkB {α : Type} : Except String α → Bool
  | .ok _ => true
  | .error _ => false

/-! ### The fetched sequence payload shared by both traversals

`getSequence` resolves to `data.sequence` whose `activities` field may be
a JSON string, an array, or anything else; both engines then run
`JSON.parse` when it is a string.  The parse outcome is part of the
environment data (`strUnparsable` carries the message of the exception
the platform would throw). -/

/-- The `steps` field of a fetched activity as the engines test it:
`absent` covers any value for which `activity.steps && Array.isArray(activity.steps)`
is false (missing, null, non-array), `arr` an actual array of
`activityStepId` values. -/
inductive StepsField where
  | absent
  | arr (stepIds : List String)
deriving Repr, DecidableEq

/-- One entry of the fetched `activities` list. -/
structure FetchedActivity where
  activityId : String
  steps : StepsField
deriving Repr, DecidableEq

/-- The raw `activities` field of `data.sequence`. -/
inductive ActivitiesField where
  /-- a string on which `JSON.parse` throws with message `msg`. -/
  | strUnparsable (msg : String)
  /-- a string parsing to an array. -/
  | strList (l : List FetchedActivity)
  /-- a string parsing to a non-array value. -/
  | strNonList
  /-- already an array. -/
  | arr (l : List FetchedActivity)
  /-- present but neither a string nor an array. -/
  | nonArray
deriving Repr, DecidableEq

/-- Outcome of one `getSequence` call as the callers observe it. -/
inductive FetchOutcome where
  /-- the call `getSequence` rejected (network, HTTP or GraphQL error) with message. -/
  | threw (msg : String)
  /-- fulfilled but `seqData?.data?.sequence` is absent. -/
  | noData
  /-- fulfilled; `sequence.sequenceId` and `sequence.activities`. -/
  | ok (sequenceId : String) (acts : ActivitiesField)
deriving Repr, DecidableEq

/-- The activities normalization of `handleProcessSelected` (TimeForm.tsx
lines 184-192): `JSON.parse` on a string runs with no surrounding
`try`, so an unparsable string throws out to the per-sequence `catch`
(`Except.error msg` here); a parsed non-array or any other non-array
value is replaced by `[]`. -/
def decodeActivitiesSelected : ActivitiesField → Except String (List FetchedActivity)
  | .strUnparsable msg => .error msg
  | .strList l => .ok l
  | .strNonList => .ok []
  | .arr l => .ok l
  | .nonArray => .ok []

/-- The activities normalization of `processAllProgress` (addProgress.ts
lines 296-311): the string parse runs inside its own `try`, a parse
error is demoted to `[]`, and the following `Array.isArray` guard turns
every non-array into a skip, indistinguishable from an empty list. -/
def decodeActivitiesAll : ActivitiesField → List FetchedActivity
  | .strUnparsable _ => []
  | .strList l => l
  | .strNonList => []
  | .arr l => l
  | .nonArray => []

/-! ### The selected-batch engine (TimeForm.tsx, handleProcessSelected)

The UI selection state is the `sequences` list; the fields of
`SequenceItem` that `handleProcessSelected` never reads (`sequenceId`,
`expanded`, `loading`, and `activityType` of an activity) are omitted.
The environment supplies the outcome of the fresh `getSequence` of the
i-th sequence (the slug computed from the title only selects which
remote record answers, so the oracle is indexed by position) and the
per-call environment of each `addProgressForActivity`.  The `setResult`
stream is modelled as a list of structured report lines, and every
network call is recorded in a trace. -/

/-- A UI activity row: identifier and checkbox state. -/
structure Activity where
  activityId : String
  selected : Bool
deriving Repr, DecidableEq

/-- A UI sequence row (the fields `handleProcessSelected` reads). -/
structure SequenceItem where
  courseId : String
  courseName : String
  sequenceTitle : String
  selected : Bool
  activities : List Activity
deriving Repr, DecidableEq

/-- One line appended to the result stream. -/
inductive ReportLine where
  /-- the line `Processing N activities...` -/
  | header (total : Nat)
  /-- a line `FAIL course > sequence: msg` -/
  | fail (courseName sequenceTitle msg : String)
  /-- a line `OK course > sequence: S steps from A activities` -/
  | success (courseName sequenceTitle : String) (stepsProcessed selectedCount : Nat)
  /-- the line `Complete! S succeeded, E failed` -/
  | summary (successCount errorCount : Nat)
deriving Repr, DecidableEq

/-- A network call issued by the selected-batch engine. -/
inductive NetCall where
  /-- the fresh `getSequence` for the i-th sequence of the list. -/
  | fetch (seqIndex : Nat)
  /-- one `addProgressForActivity` call with its four identifiers. -/
  | submit (courseId sequenceId activityId activityStepId : String)
deriving Repr, DecidableEq

/-- Environment of one batch run. -/
structure BatchEnv where
  fetchSeq : Nat → FetchOutcome
  submit : String → String → String → String → SubmitEnv

/-- Counters, report and trace accumulated across sequences. -/
structure SeqState where
  successCount : Nat
  errorCount : Nat
  report : List ReportLine
  calls : List NetCall
deriving Repr, DecidableEq

/-- Result of processing one found activity. -/
structure ActOut where
  stepsProcessed : Nat
  successInc : Nat
  errorInc : Nat
  calls : List NetCall
deriving Repr, DecidableEq

/-- The `for (const step of activity.steps)` loop (TimeForm.tsx lines
200-213): every step is attempted; `stepsProcessed++` runs only after
the `await` succeeds, and the `catch` swallows a failure and moves to
the next step.  Returns the `stepsProcessed` contribution and the calls
issued. -/
def runStepLoop (env : BatchEnv) (courseId seqId actId : String) :
    List String → Nat × List NetCall
  | [] => (0, [])
  | stepId :: rest =>
    let ok := isOkB (addProgressForActivity courseId seqId actId stepId
      (env.submit courseId seqId actId stepId))
    let r := runStepLoop env courseId seqId actId rest
    ((if ok then 1 else 0) + r.1, NetCall.submit courseId seqId actId stepId :: r.2)

/-- The body of the selected-activity loop once the fetched entry is
found (TimeForm.tsx lines 199-230): if `activity.steps` is an array
(empty included) the step loop runs and `successCount++` follows it
unconditionally; otherwise one call with the activity identifier as the
step identifier is made, incrementing `successCount` and
`stepsProcessed` on success and `errorCount` on failure. -/
def processFoundActivity (env : BatchEnv) (courseId seqId : String)
    (act : FetchedActivity) : ActOut :=
  match act.steps with
  | .arr steps =>
    let r := runStepLoop env courseId seqId act.activityId steps
    { stepsProcessed := r.1, successInc := 1, errorInc := 0, calls := r.2 }
  | .absent =>
    let ok := isOkB (addProgressForActivity courseId seqId act.activityId act.activityId
      (env.submit courseId seqId act.activityId act.activityId))
    { stepsProcessed := if ok then 1 else 0,
      successInc := if ok then 1 else 0,
      errorInc := if ok then 0 else 1,
      calls := [NetCall.submit courseId seqId act.activityId act.activityId] }

/-- The `for (const selectedAct of selectedActivities)` loop (TimeForm.tsx
lines 195-231): each selected activity is looked up in the freshly
fetched list by identifier; a miss is skipped silently. -/
def runActivityLoop (env : BatchEnv) (courseId seqId : String)
    (fetched : List FetchedActivity) : List Activity → ActOut
  | [] => { stepsProcessed := 0, successInc := 0, errorInc := 0, calls := [] }
  | selAct :: rest =>
    let tail := runActivityLoop env courseId seqId fetched rest
    match fetched.find? (fun a => a.activityId = selAct.activityId) with
    | none => tail
    | some act =>
      let out := processFoundActivity env courseId seqId act
      { stepsProcessed := out.stepsProcessed + tail.stepsProcessed,
        successInc := out.successInc + tail.successInc,
        errorInc := out.errorInc + tail.errorInc,
        calls := out.calls ++ tail.calls }

/-- The body of the outer sequence loop (TimeForm.tsx lines 165-247) for
the i-th sequence: unselected sequences and sequences with no selected
activity are skipped before any call; then the fresh fetch runs, and a
rejection, an absent `data.sequence`, or a thrown `JSON.parse` all land
in the per-sequence failure branch, adding the count of selected
activities to `errorCount` and appending a `✗` line; otherwise the
activity loop runs and a `✓` line is appended. -/
def processSequence (env : BatchEnv) (i : Nat) (seq : SequenceItem)
    (st : SeqState) : SeqState :=
  if seq.selected = false then st
  else
    let selectedActivities := seq.activities.filter (fun a => a.selected)
    if selectedActivities.length = 0 then st
    else
      match env.fetchSeq i with
      | .threw msg =>
        { st with
          errorCount := st.errorCount + selectedActivities.length,
          report := st.report ++ [.fail seq.courseName seq.sequenceTitle msg],
          calls := st.calls ++ [.fetch i] }
      | .noData =>
        { st with
          errorCount := st.errorCount + selectedActivities.length,
          report := st.report ++ [.fail seq.courseName seq.sequenceTitle "No sequence data"],
          calls := st.calls ++ [.fetch i] }
      | .ok fetchedSeqId acts =>
        match decodeActivitiesSelected acts with
        | .error msg =>
          { st with
            errorCount := st.errorCount + selectedActivities.length,
            report := st.report ++ [.fail seq.courseName seq.sequenceTitle msg],
            calls := st.calls ++ [.fetch i] }
        | .ok activities =>
          let out := runActivityLoop env seq.courseId fetchedSeqId activities selectedActivities
          { successCount := st.successCount + out.successInc,
            errorCount := st.errorCount + out.errorInc,
            report := st.report ++
              [.success seq.courseName seq.sequenceTitle out.stepsProcessed selectedActivities.length],
            calls := st.calls ++ [.fetch i] ++ out.calls }

/-- The validation count (TimeForm.tsx lines 147-152): selected
activities summed over selected sequences. -/
def totalSelectedActivities : List SequenceItem → Nat
  | [] => 0
  | seq :: rest =>
    (if seq.selected then (seq.activities.filter (fun a => a.selected)).length else 0)
    + totalSelectedActivities rest

/-- The outer `for (const seq of sequences)` loop, threading the index
used to key the fetch oracle. -/
def runSequences (env : BatchEnv) : Nat → List SequenceItem → SeqState → SeqState
  | _, [], st => st
  | i, seq :: rest, st => runSequences env (i + 1) rest (processSequence env i seq st)

/-- Observable outcome of one `handleProcessSelected` run. -/
structure BatchOutcome where
  validationError : Option String
  report : List ReportLine
  successCount : Nat
  errorCount : Nat
  calls : List NetCall
deriving Repr, DecidableEq

/-- The trailing summary line appended after the loop (TimeForm.tsx line
249). -/
def finalizeBatch (st : SeqState) : BatchOutcome :=
  { validationError := none,
    report := st.report ++ [.summary st.successCount st.errorCount],
    successCount := st.successCount,
    errorCount := st.errorCount,
    calls := st.calls }

/-- The function `handleProcessSelected` (TimeForm.tsx lines 146-257): validation
guard, then the sequence loop starting from the header line, then the
summary line. -/
def handleProcessSelected (env : BatchEnv) (sequences : List SequenceItem) : BatchOutcome :=
  let total := totalSelectedActivities sequences
  if total = 0 then
    { validationError := some "Please select at least one activity in a sequence",
      report := [], successCount := 0, errorCount := 0, calls := [] }
  else
    finalizeBatch (runSequences env 0 sequences
      { successCount := 0, errorCount := 0, report := [.header total], calls := [] })

/-! ### The non-interactive traversal (addProgress.ts, processAllProgress)

The top-level `getCoursesAndProgress` outcome, the per-(course, sequence)
`getSequence` outcomes and the per-call submission environments form the
environment.  The traversal result is the trace of network calls wrapped
in `Except`: the outer `catch` logs and rethrows, so the run is an
`Except.error` exactly when `getCoursesAndProgress` rejects or
`coursesData?.data?.assignedCourses` is absent. -/

/-- A sequence summary inside a course (only `title` is read, to build
the slug that keys the fetch; the oracle is indexed by position). -/
structure CourseSeq where
  title : String
deriving Repr, DecidableEq

/-- A course from `data.assignedCourses`. -/
structure Course where
  courseId : String
  title : String
  sequences : List CourseSeq
deriving Repr, DecidableEq

/-- A network call issued by `processAllProgress`. -/
inductive AllCall where
  | fetchCourses
  | fetchSeq (courseIdx seqIdx : Nat)
  | submit (courseId sequenceId activityId activityStepId : String)
deriving Repr, DecidableEq

/-- Environment of one `processAllProgress` run.  `courses` is the
outcome of `getCoursesAndProgress` (`Except.ok none` when the call
fulfills but `data.assignedCourses` is absent). -/
structure AllEnv where
  courses : Except String (Option (List Course))
  fetchSeq : Nat → Nat → FetchOutcome
  submit : String → String → String → String → SubmitEnv

/-- The `for (const step of activity.steps)` loop (addProgress.ts lines
323-332): there is no per-step `catch`, so a rejected submission throws
to the per-activity handler and the remaining steps of this activity are
never attempted. -/
def runStepsAll (env : AllEnv) (courseId seqId actId : String) :
    List String → List AllCall
  | [] => []
  | stepId :: rest =>
    let call := AllCall.submit courseId seqId actId stepId
    if isOkB (addProgressForActivity courseId seqId actId stepId
        (env.submit courseId seqId actId stepId)) then
      call :: runStepsAll env courseId seqId actId rest
    else
      [call]

/-- One activity of `processAllProgress` (lines 320-346): the step loop
runs only when `activity.steps` is a non-empty array; otherwise one call
with the activity identifier as step identifier is made.  Either way the
per-activity `catch` swallows any failure, so the walk continues with
the next activity. -/
def processActivityAll (env : AllEnv) (courseId seqId : String)
    (act : FetchedActivity) : List AllCall :=
  match act.steps with
  | .arr (s :: rest) => runStepsAll env courseId seqId act.activityId (s :: rest)
  | .arr [] => [AllCall.submit courseId seqId act.activityId act.activityId]
  | .absent => [AllCall.submit courseId seqId act.activityId act.activityId]

/-- The activity loop of one fetched sequence. -/
def runActivitiesAll (env : AllEnv) (courseId seqId : String) :
    List FetchedActivity → List AllCall
  | [] => []
  | act :: rest =>
    processActivityAll env courseId seqId act ++ runActivitiesAll env courseId seqId rest

/-- One sequence of `processAllProgress` (lines 286-350): the fetch is
always attempted; a rejection is caught by the per-sequence `catch`, an
absent `data.sequence` just logs and continues, and the decoded
activities (parse errors demoted to `[]`) are traversed. -/
def processSequenceAll (env : AllEnv) (ci si : Nat) (courseId : String) : List AllCall :=
  AllCall.fetchSeq ci si ::
    match env.fetchSeq ci si with
    | .threw _ => []
    | .noData => []
    | .ok fetchedSeqId acts =>
      runActivitiesAll env courseId fetchedSeqId (decodeActivitiesAll acts)

/-- The sequence loop of one course, threading the sequence index. -/
def runSeqsAll (env : AllEnv) (ci : Nat) (courseId : String) :
    Nat → List CourseSeq → List AllCall
  | _, [] => []
  | si, _ :: rest =>
    processSequenceAll env ci si courseId ++ runSeqsAll env ci courseId (si + 1) rest

/-- The course loop (lines 271-352); a course with no sequences
contributes nothing. -/
def runCoursesAll (env : AllEnv) : Nat → List Course → List AllCall
  | _, [] => []
  | ci, course :: rest =>
    runSeqsAll env ci course.courseId 0 course.sequences ++ runCoursesAll env (ci + 1) rest

/-- The function `processAllProgress` (addProgress.ts lines 258-359): a rejection of
the course fetch, or an absent `assignedCourses` payload (the thrown
`No courses found`), is rethrown by the outer `catch`; everything below
is swallowed at sequence or activity level and the run fulfills with the
trace of calls made. -/
def processAllProgress (env : AllEnv) : Except String (List AllCall) :=
  match env.courses with
  | .error e => .error e
  | .ok none => .error "No courses found"
  | .ok (some courses) => .ok (AllCall.fetchCourses :: runCoursesAll env 0 courses)

/-! ### Auxiliary predicates and concrete scenarios used by the claims -/

/-- A replay-path outcome that does not reach the in-page execution
result, i.e. every case that makes `addProgressForActivity` continue
with the direct fallback. -/
def replayFellThrough : ReplayOutcome → Bool
  | .executed _ => false
  | _ => true

/-- A `getSequence` outcome the per-sequence failure handling of
`handleProcessSelected` treats as a fetch failure: a rejection or an
absent `data.sequence`. -/
def isFetchFailure : FetchOutcome → Bool
  | .threw _ => true
  | .noData => true
  | .ok _ _ => false

/-- A submission environment whose replay path finds no stored request
and whose direct fallback fetch rejects: every call fails. -/
def failingSubmitEnv : SubmitEnv :=
  { replay := .noStored, fallback := .error "network failure" }

/-- A fallback response that fulfills cleanly. -/
def okResponse : HttpResponse :=
  { ok := true, status := 200, text := "body", hasErrors := false, errorsText := "" }

/-- A submission environment whose replay path executes in the page. -/
def okSubmitEnv : SubmitEnv :=
  { replay := .executed (some { status := 200, ok := true, text := "done" }),
    fallback := .error "unused" }

/-- Scenario for C1: one selected sequence with one selected activity
whose fresh fetch returns a single matching activity with one step, and
every submission fails. -/
def envC1 : BatchEnv :=
  { fetchSeq := fun _ => .ok "sid" (.arr [{ activityId := "a1", steps := .arr ["s1"] }]),
    submit := fun _ _ _ _ => failingSubmitEnv }

/-- The selection used by the C1 scenario. -/
def seqsC1 : List SequenceItem :=
  [{ courseId := "c1", courseName := "Course", sequenceTitle := "Seq",
     selected := true, activities := [{ activityId := "a1", selected := true }] }]

/-- Scenario for C2: the fetched matching activity carries an empty
`steps` array. -/
def envC2 : BatchEnv :=
  { fetchSeq := fun _ => .ok "sid" (.arr [{ activityId := "a1", steps := .arr [] }]),
    submit := fun _ _ _ _ => failingSubmitEnv }

/-- The selection used by the C2 scenario. -/
def seqsC2 : List SequenceItem :=
  [{ courseId := "c1", courseName := "Course", sequenceTitle := "Seq",
     selected := true, activities := [{ activityId := "a1", selected := true }] }]

/-- Scenario for C3: the fresh fetch succeeds but the `activities` field
is a string `JSON.parse` rejects. -/
def envC3 : BatchEnv :=
  { fetchSeq := fun _ => .ok "sid" (.strUnparsable "Unexpected token"),
    submit := fun _ _ _ _ => failingSubmitEnv }

/-- Scenario for C4: the only fetch rejects. -/
def envC4 : BatchEnv :=
  { fetchSeq := fun _ => .threw "HTTP error 500: down",
    submit := fun _ _ _ _ => failingSubmitEnv }

/-- The selected sequence row of the C3 scenario. -/
def seqC3 : SequenceItem :=
  { courseId := "c1", courseName := "Course", sequenceTitle := "Seq",
    selected := true, activities := [{ activityId := "a1", selected := true }] }

/-- The selection used by the C3 scenario. -/
def seqsC3 : List SequenceItem := [seqC3]

/-- Scenario for C9: one course with one sequence whose single activity
has two steps, and the submission of the first step fails while every
other submission would succeed. -/
def courseC9 : Course :=
  { courseId := "c1", title := "T", sequences := [{ title := "Seq" }] }

/-- The environment of the C9 scenario. -/
def envC9 : AllEnv :=
  { courses := .ok (some [courseC9]),
    fetchSeq := fun _ _ => .ok "sid" (.arr [{ activityId := "a1", steps := .arr ["s1", "s2"] }]),
    submit := fun _ _ _ stepId => if stepId = "s1" then failingSubmitEnv else okSubmitEnv }

/-! ## Helper lemmas -/

theorem runStepLoop_calls (env : BatchEnv) (c s a : String) (steps : List String) :
    (runStepLoop env c s a steps).2 =
      steps.map (fun stepId => NetCall.submit c s a stepId) := by
  induction steps with
  | nil => rfl
  | cons x rest ih => simp [runStepLoop, ih]

theorem runStepLoop_count (env : BatchEnv) (c s a : String) (steps : List String) :
    (runStepLoop env c s a steps).1 =
      (steps.filter (fun stepId =>
        isOkB (addProgressForActivity c s a stepId (env.submit c s a stepId)))).length := by
  induction steps with
  | nil => rfl
  | cons x rest ih =>
    simp only [runStepLoop, List.filter_cons]
    cases h : isOkB (addProgressForActivity c s a x (env.submit c s a x)) with
    | false => simp [h, ih]
    | true =>
      simp [h, ih]
      omega

/-! ## C1 -/

/-- C1 counterexample: in the C1 scenario exactly one step submission is
attempted (the trace holds one `submit` call) and it fails, yet the
per-sequence `✓` line reports `0` steps processed — `stepsProcessed` did
not increment on the failed attempt, refuting the claim that it counts
attempts regardless of outcome. -/
theorem stepsProcessed_counts_attempts_refuted :
    (handleProcessSelected envC1 seqsC1).calls =
      [NetCall.fetch 0, NetCall.submit "c1" "sid" "a1" "s1"] ∧
    (handleProcessSelected envC1 seqsC1).report =
      [ReportLine.header 1, ReportLine.success "Course" "Seq" 0 1,
       ReportLine.summary 1 0] := by
  constructor <;> rfl

/-- C1 amended: in `handleProcessSelected`, for a selected activity whose
fetched entry carries a step array, `stepsProcessed` increments once per
successful step submission — a failed step submission is still attempted
(one call per step in the trace) but does not increment the counter. -/
theorem runStepLoop_counts_successes (env : BatchEnv) (courseId seqId actId : String)
    (steps : List String) :
    (processFoundActivity env courseId seqId
        { activityId := actId, steps := .arr steps }).stepsProcessed =
      (steps.filter (fun stepId =>
        isOkB (addProgressForActivity courseId seqId actId stepId
          (env.submit courseId seqId actId stepId)))).length ∧
    (processFoundActivity env courseId seqId
        { activityId := actId, steps := .arr steps }).calls.length = steps.length := by
  constructor
  · exact runStepLoop_count env courseId seqId actId steps
  · show (runStepLoop env courseId seqId actId steps).2.length = steps.length
    rw [runStepLoop_calls]
    exact List.length_map steps _

/-! ## C2 -/

/-- C2 counterexample: in the C2 scenario the selected activity's fetched
entry has `steps: []` (zero steps); the engine enters the step branch,
makes no submission at all (the trace holds only the fetch) and still
increments the success counter — refuting the claim that an activity
with zero steps gets exactly one submission whose outcome drives the
counters. -/
theorem zero_steps_single_attempt_refuted :
    handleProcessSelected envC2 seqsC2 =
      { validationError := none,
        report := [ReportLine.header 1, ReportLine.success "Course" "Seq" 0 1,
          ReportLine.summary 1 0],
        successCount := 1, errorCount := 0, calls := [NetCall.fetch 0] } := by
  rfl

/-- C2 amended: in `handleProcessSelected` the single-submission fallback
(activity identifier used as both activity id and step id, outcome
directly driving the success/error increments) applies exactly to a
selected activity whose fetched entry has no step array at all; an
activity whose step list is the empty array makes no submission and
unconditionally increments the success counter. -/
theorem processFoundActivity_no_steps_behavior (env : BatchEnv)
    (courseId seqId actId : String) :
    (processFoundActivity env courseId seqId { activityId := actId, steps := .absent } =
      if isOkB (addProgressForActivity courseId seqId actId actId
          (env.submit courseId seqId actId actId)) then
        { stepsProcessed := 1, successInc := 1, errorInc := 0,
          calls := [NetCall.submit courseId seqId actId actId] }
      else
        { stepsProcessed := 0, successInc := 0, errorInc := 1,
          calls := [NetCall.submit courseId seqId actId actId] }) ∧
    processFoundActivity env courseId seqId { activityId := actId, steps := .arr [] } =
      { stepsProcessed := 0, successInc := 1, errorInc := 0, calls := [] } := by
  constructor
  · cases h : isOkB (addProgressForActivity courseId seqId actId actId
        (env.submit courseId seqId actId actId)) <;>
      simp [processFoundActivity, h]
  · rfl

/-! ## C5 -/

/-- C5: in `handleProcessSelected`, for every selected activity whose
fetched entry carries a step array (the step-loop branch), the success
counter increment is exactly 1 regardless of how the individual step
submissions fare, the error counter is untouched, and every step is
attempted (one call per step, in order) — individual step failures are
swallowed and do not abort the remaining steps of the activity. -/
theorem step_loop_success_once_errors_swallowed (env : BatchEnv)
    (courseId seqId actId : String) (steps : List String) :
    (processFoundActivity env courseId seqId
        { activityId := actId, steps := .arr steps }).successInc = 1 ∧
    (processFoundActivity env courseId seqId
        { activityId := actId, steps := .arr steps }).errorInc = 0 ∧
    (processFoundActivity env courseId seqId
        { activityId := actId, steps := .arr steps }).calls =
      steps.map (fun stepId => NetCall.submit courseId seqId actId stepId) := by
  exact ⟨rfl, rfl, runStepLoop_calls env courseId seqId actId steps⟩

/-! ## C6 -/

/-- C6: when the total count of selected activities across all selected
sequences is zero, `handleProcessSelected` reports the validation
failure and returns with an empty network trace — no sequence fetch and
no submission. -/
theorem zero_selected_validation_no_calls (env : BatchEnv)
    (sequences : List SequenceItem)
    (h : totalSelectedActivities sequences = 0) :
    handleProcessSelected env sequences =
      { validationError := some "Please select at least one activity in a sequence",
        report := [], successCount := 0, errorCount := 0, calls := [] } := by
  unfold handleProcessSelected
  simp [h]

/-- C6 witness: a batch with one selected sequence whose activities are
all unselected issues no network call. -/
theorem zero_selected_validation_no_calls_witness :
    handleProcessSelected envC1
      [{ courseId := "c1", courseName := "Course", sequenceTitle := "Seq",
         selected := true, activities := [{ activityId := "a1", selected := false }] }] =
      { validationError := some "Please select at least one activity in a sequence",
        report := [], successCount := 0, errorCount := 0, calls := [] } :=
  zero_selected_validation_no_calls envC1 _ rfl

/-! ## C7 -/

theorem addProgress_executed_aux (courseId seqId actId stepId : String)
    (env : SubmitEnv) (r : Option PageResult)
    (h1 : courseId ≠ "") (h2 : seqId ≠ "") (h3 : actId ≠ "") (h4 : stepId ≠ "")
    (h5 : env.replay = .executed r) :
    addProgressForActivity courseId seqId actId stepId env =
      .ok (.replayed r) := by
  unfold addProgressForActivity
  rw [if_neg (by simp [h1, h2, h3, h4]), h5]

/-- C7: with all four identifiers non-empty, every replay-path failure —
storage read failure, absent or bodyless stored request, body-parse
failure, in-page execution failure — makes `addProgressForActivity`
coincide with the direct fallback request, so the caller sees an error
exactly when that fallback itself fails. -/
theorem replay_failure_falls_back (courseId seqId actId stepId : String)
    (env : SubmitEnv)
    (h1 : courseId ≠ "") (h2 : seqId ≠ "") (h3 : actId ≠ "") (h4 : stepId ≠ "")
    (h5 : replayFellThrough env.replay = true) :
    addProgressForActivity courseId seqId actId stepId env = fallbackFetch env := by
  obtain ⟨rep, fb⟩ := env
  unfold addProgressForActivity
  rw [if_neg (by simp [h1, h2, h3, h4])]
  cases rep with
  | executed r => simp [replayFellThrough] at h5
  | storageError => rfl
  | noStored => rfl
  | bodyParseError => rfl
  | execError => rfl

/-- C7 witness: a storage failure with a succeeding fallback resolves to
the fallback data. -/
theorem replay_failure_falls_back_witness :
    addProgressForActivity "c" "s" "a" "t"
      { replay := .storageError, fallback := .ok okResponse } =
      fallbackFetch { replay := .storageError, fallback := .ok okResponse } :=
  replay_failure_falls_back "c" "s" "a" "t" _
    (by decide) (by decide) (by decide) (by decide) rfl

/-! ## C10 -/

/-- C10: when the replay path executes in the page context,
`addProgressForActivity` resolves to the raw in-page result whatever its
HTTP status, `ok` flag or body text — it never throws there, so in the
selected-batch engine the no-steps branch counts such a submission as a
success (and never as an error), and in `processAllProgress` the step
loop continues to the next step; the HTTP/GraphQL error taxonomy is
applied only by the fallback path. -/
theorem replay_result_uninspected_success :
    (∀ (courseId seqId actId stepId : String) (env : SubmitEnv) (r : Option PageResult),
      courseId ≠ "" → seqId ≠ "" → actId ≠ "" → stepId ≠ "" →
      env.replay = .executed r →
      addProgressForActivity courseId seqId actId stepId env = .ok (.replayed r)) ∧
    (∀ (benv : BatchEnv) (courseId seqId actId : String) (r : Option PageResult),
      courseId ≠ "" → seqId ≠ "" → actId ≠ "" →
      (benv.submit courseId seqId actId actId).replay = .executed r →
      (processFoundActivity benv courseId seqId
        { activityId := actId, steps := .absent }).successInc = 1 ∧
      (processFoundActivity benv courseId seqId
        { activityId := actId, steps := .absent }).errorInc = 0) ∧
    (∀ (aenv : AllEnv) (courseId seqId actId stepId : String) (rest : List String)
      (r : Option PageResult),
      courseId ≠ "" → seqId ≠ "" → actId ≠ "" → stepId ≠ "" →
      (aenv.submit courseId seqId actId stepId).replay = .executed r →
      runStepsAll aenv courseId seqId actId (stepId :: rest) =
        AllCall.submit courseId seqId actId stepId ::
          runStepsAll aenv courseId seqId actId rest) := by
  refine ⟨addProgress_executed_aux, ?_, ?_⟩
  · intro benv courseId seqId actId r h1 h2 h3 hrep
    have hok : isOkB (addProgressForActivity courseId seqId actId actId
        (benv.submit courseId seqId actId actId)) = true := by
      rw [addProgress_executed_aux courseId seqId actId actId _ r h1 h2 h3 h3 hrep]
      rfl
    constructor <;> simp [processFoundActivity, hok]
  · intro aenv courseId seqId actId stepId rest r h1 h2 h3 h4 hrep
    have hok : isOkB (addProgressForActivity courseId seqId actId stepId
        (aenv.submit courseId seqId actId stepId)) = true := by
      rw [addProgress_executed_aux courseId seqId actId stepId _ r h1 h2 h3 h4 hrep]
      rfl
    simp [runStepsAll, hok]

/-- C10 witness: a replayed submission the server rejected (HTTP 500,
`ok: false`, an errors body) still resolves to the raw in-page result. -/
theorem replay_result_uninspected_success_witness :
    addProgressForActivity "c" "s" "a" "t"
      { replay := .executed (some { status := 500, ok := false, text := "errors" }),
        fallback := .error "unused" } =
      .ok (.replayed (some { status := 500, ok := false, text := "errors" })) :=
  replay_result_uninspected_success.1 "c" "s" "a" "t" _ _
    (by decide) (by decide) (by decide) (by decide) rfl

/-! ## C3 -/

theorem runActivityLoop_nil_fetched (env : BatchEnv) (c sid : String)
    (sel : List Activity) :
    runActivityLoop env c sid [] sel =
      { stepsProcessed := 0, successInc := 0, errorInc := 0, calls := [] } := by
  induction sel with
  | nil => rfl
  | cons a rest ih => simp [runActivityLoop, ih, List.find?]

/-- C3 counterexample: in the C3 scenario the fetched `activities` field
is an unparsable string; `handleProcessSelected` records a per-sequence
failure — the error counter rises by the selected-activity count and a
`✗` line is appended — instead of degrading to an empty list, refuting
the claim for the selected-batch engine. -/
theorem unparsable_activities_no_failure_refuted :
    (handleProcessSelected envC3 seqsC3).errorCount = 1 ∧
    (handleProcessSelected envC3 seqsC3).report =
      [ReportLine.header 1, ReportLine.fail "Course" "Seq" "Unexpected token",
       ReportLine.summary 0 1] := by
  constructor <;> rfl

/-- C3 amended: `processAllProgress` demotes an unparsable or non-list
`activities` string (and any non-array value) to an empty list without
recording a failure; `handleProcessSelected` does so only for non-list
values — an activities string `JSON.parse` rejects escapes to the
per-sequence handler, which counts every selected activity of that
sequence as failed and appends a `✗` line, while a string parsing to a
non-list yields a `✓` line with zero steps and unchanged counters. -/
theorem activities_decode_amended :
    (∀ msg, decodeActivitiesAll (.strUnparsable msg) = [] ∧
      decodeActivitiesAll .strNonList = [] ∧
      decodeActivitiesAll .nonArray = []) ∧
    (decodeActivitiesSelected .strNonList = .ok [] ∧
      decodeActivitiesSelected .nonArray = .ok []) ∧
    (∀ (env : BatchEnv) (i : Nat) (seq : SequenceItem) (st : SeqState) (sid msg : String),
      seq.selected = true →
      (seq.activities.filter (fun a => a.selected)).length ≠ 0 →
      env.fetchSeq i = .ok sid (.strUnparsable msg) →
      processSequence env i seq st =
        { st with
          errorCount := st.errorCount + (seq.activities.filter (fun a => a.selected)).length,
          report := st.report ++ [.fail seq.courseName seq.sequenceTitle msg],
          calls := st.calls ++ [.fetch i] }) ∧
    (∀ (env : BatchEnv) (i : Nat) (seq : SequenceItem) (st : SeqState) (sid : String),
      seq.selected = true →
      (seq.activities.filter (fun a => a.selected)).length ≠ 0 →
      env.fetchSeq i = .ok sid .strNonList →
      processSequence env i seq st =
        { st with
          report := st.report ++ [.success seq.courseName seq.sequenceTitle 0
            (seq.activities.filter (fun a => a.selected)).length],
          calls := st.calls ++ [.fetch i] }) := by
  refine ⟨fun msg => ⟨rfl, rfl, rfl⟩, ⟨rfl, rfl⟩, ?_, ?_⟩
  · intro env i seq st sid msg hsel hne hfetch
    unfold processSequence
    rw [if_neg (by simp [hsel]), if_neg hne, hfetch]
    rfl
  · intro env i seq st sid hsel hne hfetch
    unfold processSequence
    rw [if_neg (by simp [hsel]), if_neg hne, hfetch]
    simp [decodeActivitiesSelected, runActivityLoop_nil_fetched]

/-- C3 amended witness: a concrete instance of the unparsable-string
conjunct for the selected engine. -/
theorem activities_decode_amended_witness :
    processSequence envC3 0 seqC3
      { successCount := 0, errorCount := 0, report := [], calls := [] } =
      { successCount := 0, errorCount := 1,
        report := [ReportLine.fail "Course" "Seq" "Unexpected token"],
        calls := [NetCall.fetch 0] } :=
  activities_decode_amended.2.2.1 envC3 0 seqC3
    { successCount := 0, errorCount := 0, report := [], calls := [] }
    "sid" "Unexpected token" rfl (by decide) rfl

/-! ## C4 -/

theorem totalSelectedActivities_append (xs ys : List SequenceItem) :
    totalSelectedActivities (xs ++ ys) =
      totalSelectedActivities xs + totalSelectedActivities ys := by
  induction xs with
  | nil => simp [totalSelectedActivities]
  | cons x rest ih =>
    simp [totalSelectedActivities, ih]
    omega

theorem runSequences_append (env : BatchEnv) (xs ys : List SequenceItem)
    (i : Nat) (st : SeqState) :
    runSequences env i (xs ++ ys) st =
      runSequences env (i + xs.length) ys (runSequences env i xs st) := by
  induction xs generalizing i st with
  | nil => simp [runSequences]
  | cons x rest ih =>
    show runSequences env (i + 1) (rest ++ ys) (processSequence env i x st) =
      runSequences env (i + (x :: rest).length) ys
        (runSequences env (i + 1) rest (processSequence env i x st))
    rw [ih]
    have h2 : i + 1 + rest.length = i + (x :: rest).length := by
      simp
      omega
    rw [h2]

/-- C4: for a selected sequence with a non-empty selected-activity list
whose fresh fetch fails (rejection or absent sequence data), the batch
run equals: the run over the preceding sequences, then a state update
that adds exactly the count of activities selected before the fetch to
the error counter, appends one `✗` line and records the fetch call, and
then the run continuing over the remaining sequences — the batch is not
aborted. -/
theorem fetch_failure_counts_selected (env : BatchEnv)
    (pre post : List SequenceItem) (seq : SequenceItem)
    (hsel : seq.selected = true)
    (hne : (seq.activities.filter (fun a => a.selected)).length ≠ 0)
    (hfail : isFetchFailure (env.fetchSeq pre.length) = true) :
    ∃ msg,
      handleProcessSelected env (pre ++ seq :: post) =
        finalizeBatch (runSequences env (pre.length + 1) post
          (let st1 := runSequences env 0 pre
            { successCount := 0, errorCount := 0,
              report := [ReportLine.header (totalSelectedActivities (pre ++ seq :: post))],
              calls := [] }
           { st1 with
             errorCount := st1.errorCount + (seq.activities.filter (fun a => a.selected)).length,
             report := st1.report ++ [ReportLine.fail seq.courseName seq.sequenceTitle msg],
             calls := st1.calls ++ [NetCall.fetch pre.length] })) := by
  have htot : totalSelectedActivities (pre ++ seq :: post) ≠ 0 := by
    rw [totalSelectedActivities_append]
    simp only [totalSelectedActivities, hsel, if_true]
    omega
  obtain ⟨msg, hps⟩ : ∃ msg, processSequence env pre.length seq
      (runSequences env 0 pre
        { successCount := 0, errorCount := 0,
          report := [ReportLine.header (totalSelectedActivities (pre ++ seq :: post))],
          calls := [] }) =
      (let st1 := runSequences env 0 pre
        { successCount := 0, errorCount := 0,
          report := [ReportLine.header (totalSelectedActivities (pre ++ seq :: post))],
          calls := [] }
       { st1 with
         errorCount := st1.errorCount + (seq.activities.filter (fun a => a.selected)).length,
         report := st1.report ++ [ReportLine.fail seq.courseName seq.sequenceTitle msg],
         calls := st1.calls ++ [NetCall.fetch pre.length] }) := by
    cases hf : env.fetchSeq pre.length with
    | threw m =>
      refine ⟨m, ?_⟩
      unfold processSequence
      rw [if_neg (by simp [hsel]), if_neg hne, hf]
    | noData =>
      refine ⟨"No sequence data", ?_⟩
      unfold processSequence
      rw [if_neg (by simp [hsel]), if_neg hne, hf]
    | ok sid acts =>
      rw [hf] at hfail
      simp [isFetchFailure] at hfail
  refine ⟨msg, ?_⟩
  have hrun : handleProcessSelected env (pre ++ seq :: post) =
      finalizeBatch (runSequences env 0 (pre ++ seq :: post)
        { successCount := 0, errorCount := 0,
          report := [ReportLine.header (totalSelectedActivities (pre ++ seq :: post))],
          calls := [] }) := by
    unfold handleProcessSelected
    rw [if_neg htot]
  rw [hrun, runSequences_append, Nat.zero_add]
  show finalizeBatch (runSequences env (pre.length + 1) post
    (processSequence env pre.length seq (runSequences env 0 pre
      { successCount := 0, errorCount := 0,
        report := [ReportLine.header (totalSelectedActivities (pre ++ seq :: post))],
        calls := [] }))) = _
  rw [hps]

/-- C4 witness: a single selected sequence with one selected activity
against an environment whose only fetch rejects. -/
theorem fetch_failure_counts_selected_witness :
    ∃ msg,
      handleProcessSelected envC4 [seqC3] =
        finalizeBatch (runSequences envC4 1 []
          (let st1 := runSequences envC4 0 []
            { successCount := 0, errorCount := 0,
              report := [ReportLine.header (totalSelectedActivities [seqC3])],
              calls := [] }
           { st1 with
             errorCount := st1.errorCount + (seqC3.activities.filter (fun a => a.selected)).length,
             report := st1.report ++ [ReportLine.fail seqC3.courseName seqC3.sequenceTitle msg],
             calls := st1.calls ++ [NetCall.fetch 0] })) :=
  fetch_failure_counts_selected envC4 [] [] seqC3 rfl (by decide) rfl

/-! ## C9 -/

/-- C9 counterexample: in the C9 scenario the first step's submission
fails; the run still fulfills, but the trace shows the second step of
the same activity was never attempted — the walk did not continue past
the step failure to the remaining steps, refuting the claim's
description of step-failure handling. -/
theorem walk_continues_past_step_failure_refuted :
    processAllProgress envC9 =
      .ok [AllCall.fetchCourses, AllCall.fetchSeq 0 0,
        AllCall.submit "c1" "sid" "a1" "s1"] ∧
    AllCall.submit "c1" "sid" "a1" "s2" ∉
      [AllCall.fetchCourses, AllCall.fetchSeq 0 0,
        AllCall.submit "c1" "sid" "a1" "s1"] := by
  exact ⟨rfl, by decide⟩

/-- C9 amended: in `processAllProgress` a failed step submission throws
to the per-activity handler, so the remaining steps of that activity are
skipped (only the failing step's call is in the trace), while the walk
continues with the following activities and sequences; the run
propagates an error to the caller exactly when the top-level course
fetch fails or the `assignedCourses` payload is absent. -/
theorem processAllProgress_amended :
    (∀ env : AllEnv, (∃ e, processAllProgress env = .error e) ↔
      ((∃ e, env.courses = .error e) ∨ env.courses = .ok none)) ∧
    (∀ (env : AllEnv) (courseId seqId actId stepId : String) (rest : List String),
      isOkB (addProgressForActivity courseId seqId actId stepId
        (env.submit courseId seqId actId stepId)) = false →
      runStepsAll env courseId seqId actId (stepId :: rest) =
        [AllCall.submit courseId seqId actId stepId]) := by
  constructor
  · intro env
    unfold processAllProgress
    cases h : env.courses with
    | error e => simp
    | ok o => cases o <;> simp
  · intro env courseId seqId actId stepId rest hfail
    simp [runStepsAll, hfail]

/-- C9 amended witness: with a failing submission environment the step
loop stops at the failing step. -/
theorem processAllProgress_amended_witness :
    runStepsAll envC9 "c1" "sid" "a1" ("s1" :: ["s2"]) =
      [AllCall.submit "c1" "sid" "a1" "s1"] :=
  processAllProgress_amended.2 envC9 "c1" "sid" "a1" "s1" ["s2"] (by decide)

/-! ## C8: lemmas about the slug pipeline -/

theorem isSlugAlnum_isSlugChar {c : Char} (h : isSlugAlnum c = true) :
    isSlugChar c = true := by
  simp [isSlugChar, h]

theorem isSlugAlnum_ne_dash {c : Char} (h : isSlugAlnum c = true) : c ≠ '-' := by
  intro he
  subst he
  exact absurd h (by decide)

theorem noDoubleDash_cons_iff (a : Char) (l : List Char) :
    noDoubleDash (a :: l) = true ↔
      (noDoubleDash l = true ∧ ¬(a = '-' ∧ l.head? = some '-')) := by
  cases l with
  | nil => simp [noDoubleDash]
  | cons b rest =>
    by_cases ha : a = '-' <;> by_cases hb : b = '-' <;>
      simp [noDoubleDash, ha, hb]

theorem noDoubleDash_tail {a : Char} {l : List Char}
    (h : noDoubleDash (a :: l) = true) : noDoubleDash l = true :=
  ((noDoubleDash_cons_iff a l).mp h).1

theorem collapse_all_slugChar (b : Bool) (l : List Char) :
    (collapseNonAlnum b l).all isSlugChar = true := by
  induction l generalizing b with
  | nil => rfl
  | cons c cs ih =>
    cases h : isSlugAlnum c with
    | true => simp [collapseNonAlnum, h, isSlugAlnum_isSlugChar h, ih]
    | false =>
      cases b with
      | true => simpa [collapseNonAlnum, h] using ih true
      | false => simp [collapseNonAlnum, h, isSlugChar, ih]

theorem collapse_structure (l : List Char) :
    noDoubleDash (collapseNonAlnum false l) = true ∧
    noDoubleDash (collapseNonAlnum true l) = true ∧
    (collapseNonAlnum true l).head? ≠ some '-' := by
  induction l with
  | nil => exact ⟨rfl, rfl, by simp [collapseNonAlnum]⟩
  | cons c cs ih =>
    obtain ⟨ihf, iht, ihh⟩ := ih
    cases h : isSlugAlnum c with
    | true =>
      have hcne : c ≠ '-' := isSlugAlnum_ne_dash h
      have hf : collapseNonAlnum false (c :: cs) = c :: collapseNonAlnum false cs := by
        simp [collapseNonAlnum, h]
      have ht : collapseNonAlnum true (c :: cs) = c :: collapseNonAlnum false cs := by
        simp [collapseNonAlnum, h]
      refine ⟨?_, ?_, ?_⟩
      · rw [hf, noDoubleDash_cons_iff]
        exact ⟨ihf, fun hp => hcne hp.1⟩
      · rw [ht, noDoubleDash_cons_iff]
        exact ⟨ihf, fun hp => hcne hp.1⟩
      · rw [ht]
        simp [hcne]
    | false =>
      have hf : collapseNonAlnum false (c :: cs) = '-' :: collapseNonAlnum true cs := by
        simp [collapseNonAlnum, h]
      have ht : collapseNonAlnum true (c :: cs) = collapseNonAlnum true cs := by
        simp [collapseNonAlnum, h]
      refine ⟨?_, ?_, ?_⟩
      · rw [hf, noDoubleDash_cons_iff]
        exact ⟨iht, fun hp => ihh hp.2⟩
      · rw [ht]
        exact iht
      · rw [ht]
        exact ihh

theorem collapse_id (l : List Char) :
    (l.all isSlugChar = true → noDoubleDash l = true →
      collapseNonAlnum false l = l) ∧
    (l.all isSlugChar = true → noDoubleDash l = true → l.head? ≠ some '-' →
      collapseNonAlnum true l = l) := by
  induction l with
  | nil => exact ⟨fun _ _ => rfl, fun _ _ _ => rfl⟩
  | cons c cs ih =>
    obtain ⟨ihf, iht⟩ := ih
    have split_all : (c :: cs).all isSlugChar = true →
        isSlugChar c = true ∧ cs.all isSlugChar = true := by
      intro hall
      rw [List.all_cons, Bool.and_eq_true] at hall
      exact hall
    constructor
    · intro hall hnd
      obtain ⟨hc, hcs⟩ := split_all hall
      have hnd' : noDoubleDash cs = true := noDoubleDash_tail hnd
      cases hA : isSlugAlnum c with
      | true => simp [collapseNonAlnum, hA, ihf hcs hnd']
      | false =>
        have hcd : c = '-' := by
          simp only [isSlugChar, hA, Bool.false_or, decide_eq_true_eq] at hc
          exact hc
        subst hcd
        have hhead : cs.head? ≠ some '-' := by
          intro hh
          exact ((noDoubleDash_cons_iff _ _).mp hnd).2 ⟨rfl, hh⟩
        simp [collapseNonAlnum, hA, iht hcs hnd' hhead]
    · intro hall hnd hhead
      obtain ⟨hc, hcs⟩ := split_all hall
      have hnd' : noDoubleDash cs = true := noDoubleDash_tail hnd
      have hcne : c ≠ '-' := by
        intro he
        exact hhead (by rw [he]; rfl)
      have hA : isSlugAlnum c = true := by
        simp only [isSlugChar, Bool.or_eq_true, decide_eq_true_eq] at hc
        rcases hc with h1 | h2
        · exact h1
        · exact absurd h2 hcne
      simp [collapseNonAlnum, hA, ihf hcs hnd']

theorem slugChar_not_combining {c : Char} (h : isSlugChar c = true) :
    isCombining c = false := by
  have hlt : c.toNat < 0x300 := by
    simp only [isSlugChar, isSlugAlnum, Bool.or_eq_true, Bool.and_eq_true,
      decide_eq_true_eq] at h
    rcases h with (h1 | h2) | h3
    · omega
    · omega
    · subst h3
      decide
  simp only [isCombining]
  have : ¬(0x300 ≤ c.toNat) := by omega
  simp [this]

theorem stripCombining_id {l : List Char} (h : l.all isSlugChar = true) :
    stripCombining l = l := by
  unfold stripCombining
  apply List.filter_eq_self.mpr
  intro c hc
  have hcs : isSlugChar c = true := by
    rw [List.all_eq_true] at h
    exact h c hc
  simp [slugChar_not_combining hcs]

theorem dropLeadingDash_eq_self {l : List Char} (h : l.head? ≠ some '-') :
    dropLeadingDash l = l := by
  cases l with
  | nil => rfl
  | cons c rest =>
    have hc : c ≠ '-' := fun he => h (by rw [he]; rfl)
    simp [dropLeadingDash, hc]

theorem dropTrailingDash_eq_self {l : List Char} (h : l.getLast? ≠ some '-') :
    dropTrailingDash l = l := by
  induction l with
  | nil => rfl
  | cons c rest ih =>
    cases rest with
    | nil =>
      have hc : c ≠ '-' := fun he => h (by rw [he]; rfl)
      simp [dropTrailingDash, hc]
    | cons c2 r2 =>
      have h2 : (c2 :: r2).getLast? ≠ some '-' := by
        rwa [List.getLast?_cons_cons] at h
      simp [dropTrailingDash, ih h2]

theorem dropLeadingDash_all {p : Char → Bool} {l : List Char}
    (h : l.all p = true) : (dropLeadingDash l).all p = true := by
  cases l with
  | nil => rfl
  | cons c rest =>
    rw [List.all_cons, Bool.and_eq_true] at h
    by_cases hc : c = '-' <;> simp [dropLeadingDash, hc, h.1, h.2]

theorem dropTrailingDash_all {p : Char → Bool} {l : List Char}
    (h : l.all p = true) : (dropTrailingDash l).all p = true := by
  induction l with
  | nil => rfl
  | cons c rest ih =>
    rw [List.all_cons, Bool.and_eq_true] at h
    cases rest with
    | nil => by_cases hc : c = '-' <;> simp [dropTrailingDash, hc, h.1]
    | cons c2 r2 => simp [dropTrailingDash, h.1, ih h.2]

theorem dropLeadingDash_noDD {l : List Char} (h : noDoubleDash l = true) :
    noDoubleDash (dropLeadingDash l) = true := by
  cases l with
  | nil => exact h
  | cons c rest =>
    by_cases hc : c = '-'
    · simpa [dropLeadingDash, hc] using noDoubleDash_tail h
    · simpa [dropLeadingDash, hc] using h

theorem dropLeadingDash_head {l : List Char} (h : noDoubleDash l = true) :
    (dropLeadingDash l).head? ≠ some '-' := by
  cases l with
  | nil => simp [dropLeadingDash]
  | cons c rest =>
    by_cases hc : c = '-'
    · subst hc
      simp only [dropLeadingDash, if_pos rfl]
      intro hh
      exact ((noDoubleDash_cons_iff _ _).mp h).2 ⟨rfl, hh⟩
    · simp [dropLeadingDash, hc]

theorem dropTrailingDash_head {m : List Char} {x : Char}
    (h : (dropTrailingDash m).head? = some x) : m.head? = some x := by
  cases m with
  | nil => exact absurd h (by simp [dropTrailingDash])
  | cons c rest =>
    cases rest with
    | nil =>
      by_cases hc : c = '-'
      · rw [hc] at h ⊢
        exact absurd h (by simp [dropTrailingDash])
      · simpa [dropTrailingDash, hc] using h
    | cons c2 r2 => simpa [dropTrailingDash] using h

theorem dropTrailingDash_eq_nil {a : Char} {l : List Char}
    (h : dropTrailingDash (a :: l) = []) : a = '-' ∧ l = [] := by
  cases l with
  | nil =>
    by_cases ha : a = '-'
    · exact ⟨ha, rfl⟩
    · simp [dropTrailingDash, ha] at h
  | cons b r => simp [dropTrailingDash] at h

theorem dropTrailingDash_noDD {l : List Char} (h : noDoubleDash l = true) :
    noDoubleDash (dropTrailingDash l) = true := by
  induction l with
  | nil => exact h
  | cons c rest ih =>
    cases rest with
    | nil => by_cases hc : c = '-' <;> simp [dropTrailingDash, noDoubleDash, hc]
    | cons c2 r2 =>
      have ihr := ih (noDoubleDash_tail h)
      rw [show dropTrailingDash (c :: c2 :: r2) = c :: dropTrailingDash (c2 :: r2) from rfl,
        noDoubleDash_cons_iff]
      refine ⟨ihr, ?_⟩
      rintro ⟨hc, hh⟩
      exact ((noDoubleDash_cons_iff c (c2 :: r2)).mp h).2 ⟨hc, dropTrailingDash_head hh⟩

theorem dropTrailingDash_getLast {l : List Char} (h : noDoubleDash l = true) :
    (dropTrailingDash l).getLast? ≠ some '-' := by
  induction l with
  | nil => simp [dropTrailingDash]
  | cons c rest ih =>
    cases rest with
    | nil =>
      by_cases hc : c = '-' <;> simp [dropTrailingDash, hc]
    | cons c2 r2 =>
      have ihr := ih (noDoubleDash_tail h)
      rw [show dropTrailingDash (c :: c2 :: r2) = c :: dropTrailingDash (c2 :: r2) from rfl]
      cases hd : dropTrailingDash (c2 :: r2) with
      | nil =>
        obtain ⟨hc2, hr2⟩ := dropTrailingDash_eq_nil hd
        have hcne : c ≠ '-' := by
          intro he
          exact ((noDoubleDash_cons_iff c (c2 :: r2)).mp h).2 ⟨he, by rw [hc2]; rfl⟩
        simp [hcne]
      | cons d ds =>
        rw [List.getLast?_cons_cons, ← hd]
        exact ihr

/-- C8: for the platform case-mapping and NFD-normalization functions —
assumed only to be the identity on strings already made of lowercase
ASCII letters, digits and dashes, as the Unicode definitions guarantee —
`titleToSlug` always produces a well-formed slug (only lowercase ASCII
letters, digits and single dashes, no leading or trailing dash) and is
idempotent. -/
theorem titleToSlug_wellformed_idempotent (toLower nfd : List Char → List Char)
    (hl : ∀ t, t.all isSlugChar = true → toLower t = t)
    (hn : ∀ t, t.all isSlugChar = true → nfd t = t)
    (s : List Char) :
    isGoodSlug (titleToSlug toLower nfd s) = true ∧
    titleToSlug toLower nfd (titleToSlug toLower nfd s) =
      titleToSlug toLower nfd s := by
  have hgood : isGoodSlug (titleToSlug toLower nfd s) = true := by
    obtain ⟨hndf, -, -⟩ := collapse_structure (stripCombining (nfd (toLower s)))
    have hall : (collapseNonAlnum false (stripCombining (nfd (toLower s)))).all
        isSlugChar = true := collapse_all_slugChar _ _
    have h1 := dropTrailingDash_all (dropLeadingDash_all hall)
    have h2 := dropTrailingDash_noDD (dropLeadingDash_noDD hndf)
    have h3 : (trimDashes (collapseNonAlnum false
        (stripCombining (nfd (toLower s))))).head? ≠ some '-' := by
      intro hh
      exact dropLeadingDash_head hndf (dropTrailingDash_head hh)
    have h4 := dropTrailingDash_getLast (dropLeadingDash_noDD hndf)
    simp only [titleToSlug, isGoodSlug, Bool.and_eq_true, Bool.not_eq_true',
      decide_eq_false_iff_not]
    exact ⟨⟨⟨h1, h2⟩, h3⟩, h4⟩
  refine ⟨hgood, ?_⟩
  have hgood2 := hgood
  simp only [isGoodSlug, Bool.and_eq_true, Bool.not_eq_true',
    decide_eq_false_iff_not] at hgood2
  obtain ⟨⟨⟨hall, hnd⟩, hhead⟩, hlast⟩ := hgood2
  generalize hgen : titleToSlug toLower nfd s = t at hall hnd hhead hlast ⊢
  unfold titleToSlug
  rw [hl t hall, hn t hall, stripCombining_id hall, (collapse_id t).1 hall hnd]
  unfold trimDashes
  rw [dropLeadingDash_eq_self hhead, dropTrailingDash_eq_self hlast]

/-- C8 witness: the theorem instantiated with identity platform
functions (which satisfy the identity-on-slug hypotheses) on a concrete
title. -/
theorem titleToSlug_wellformed_idempotent_witness :
    isGoodSlug (titleToSlug (fun l => l) (fun l => l) "Hello, World!".toList) = true ∧
    titleToSlug (fun l => l) (fun l => l)
        (titleToSlug (fun l => l) (fun l => l) "Hello, World!".toList) =
      titleToSlug (fun l => l) (fun l => l) "Hello, World!".toList :=
  titleToSlug_wellformed_idempotent (fun l => l) (fun l => l)
    (fun _ _ => rfl) (fun _ _ => rfl) "Hello, World!".toList

end Rost
